import Mathlib

set_option maxRecDepth 40000

/-!
Verification development for the Philomelus harvester.

The definitions below are a shallow embedding of the Python sources:
dataservice.py (the per-QuerySet fetch state machine of SouthDataService),
captchaservice.py (the bounded token pool and the constructor chain), and
southocr/southocr.py (the captcha solver).  Pure functions become Lean
functions; the stateful worker loop becomes explicit state passing with the
token pool threaded through; remote I/O becomes a response-valued oracle
function supplied as a parameter.
-/

namespace Philomelus

/-! ## Data service: the per-QuerySet fetch state machine

SouthDataService._fetch0 issues one HTTP GET and classifies the response.
We embed the remote interaction as a value of FetchCall: either the request
or the JSON parse raised (the except branch of _fetch0, re-raised as
RuntimeError), or a JSON body arrived carrying an integer status and, for
status 1, the payload that _parse_json turns into the result map.

Type parameters used throughout: kappa is the type of QueryKeys (the
(sid, ymob) pairs), tau the type of Tokens (the (code, t) pairs delivered by
the captcha pool), rho the type of ResultRecords. -/

variable {kappa tau rho : Type}

/-- Outcome of the raw remote interaction inside SouthDataService._fetch0:
the requests.get / .json() call either raises, or yields a JSON body with an
integer status code and a payload. -/
inductive FetchCall (rho : Type) where
  | failure
  | json (status : Int) (payload : rho)

/-- Classified outcome of SouthDataService._fetch0: the status dispatch at
dataservice.py lines 447-457 in source order (-4, 1, -2, -3, otherwise). -/
inductive Fetch0Out (rho : Type) where
  | result (r : rho)
  | invalidYmob
  | invalidCaptcha
  | invalidSid
  | runtimeError
  | unknownResponse

/-- SouthDataService._fetch0: transport or parse failure raises RuntimeError;
status -4 raises InvalidYMOBException, 1 returns the parsed record, -2 raises
InvalidCaptchaException, -3 raises InvalidSIDException, anything else raises
UnknownResponseException. -/
def fetch0 (call : FetchCall rho) : Fetch0Out rho :=
  match call with
  | .failure => .runtimeError
  | .json status payload =>
      if status = -4 then .invalidYmob
      else if status = 1 then .result payload
      else if status = -2 then .invalidCaptcha
      else if status = -3 then .invalidSid
      else .unknownResponse

/-- How the inner while-loop of SouthDataService._fetch for one QueryKey
ends.  uncaught marks UnknownResponseException escaping every handler (it
derives from BaseException, so the except-Exception clauses do not apply). -/
inductive KeyOutcome (rho : Type) where
  | success (r : rho)
  | nextKey
  | abortSid
  | reschedule
  | uncaught
  | blocked

/-- State after processing one QueryKey: the loop outcome, the token held
when the loop ended, the tokens still available in the pool, and the number
of remote calls made for this key. -/
structure KeyStep (tau rho : Type) where
  out : KeyOutcome rho
  tok : tau
  toks : List tau
  calls : Nat

/-- The inner while-loop of SouthDataService._fetch for a single QueryKey.
The remote oracle maps (key, token) to the raw call outcome.  On
InvalidCaptchaException the handler clears captcha_valid, so the next pass
fetches a fresh token from the pool (head of toks) and retries the same key;
the discarded token is never used again.  An empty pool means
get_captcha_result() blocks forever (blocked).  All other classified
outcomes end the loop after the single call. -/
def tryKey (remote : kappa → tau → FetchCall rho) (k : kappa) :
    tau → List tau → KeyStep tau rho
  | tok, [] =>
    match fetch0 (remote k tok) with
    | .result r => ⟨.success r, tok, [], 1⟩
    | .invalidYmob => ⟨.nextKey, tok, [], 1⟩
    | .invalidSid => ⟨.abortSid, tok, [], 1⟩
    | .runtimeError => ⟨.reschedule, tok, [], 1⟩
    | .unknownResponse => ⟨.uncaught, tok, [], 1⟩
    | .invalidCaptcha => ⟨.blocked, tok, [], 1⟩
  | tok, t :: rest =>
    match fetch0 (remote k tok) with
    | .result r => ⟨.success r, tok, t :: rest, 1⟩
    | .invalidYmob => ⟨.nextKey, tok, t :: rest, 1⟩
    | .invalidSid => ⟨.abortSid, tok, t :: rest, 1⟩
    | .runtimeError => ⟨.reschedule, tok, t :: rest, 1⟩
    | .unknownResponse => ⟨.uncaught, tok, t :: rest, 1⟩
    | .invalidCaptcha =>
      let s := tryKey remote k t rest
      ⟨s.out, s.tok, s.toks, s.calls + 1⟩

/-- How a whole _fetch task ends. -/
inductive TaskEnd where
  | succeeded
  | exhausted
  | abortedSid
  | rescheduled
  | uncaughtException
  | blockedOnPool
  | notStarted
deriving DecidableEq

/-- Observable effect of one _fetch task: records appended to the result
sink, number of brand-new tasks submitted to the executor, how the task
ended, the trace of QueryKeys attempted (in order, with the number of remote
calls made for each), and the tokens left in the pool. -/
structure FetchResult (kappa tau rho : Type) where
  results : List rho
  resubmits : Nat
  taskEnd : TaskEnd
  trace : List (kappa × Nat)
  toks : List tau

/-- The for-loop of SouthDataService._fetch over the QueryKeys of one
QuerySet, given the token currently held and the remaining pool.  success
appends one record and returns; nextKey (InvalidYMOB, skip = True) advances
to the next key keeping the current token; abortSid returns with nothing;
reschedule (RuntimeError) submits exactly one new task for the same set and
returns; uncaught ends the task by an escaping exception; running out of
keys logs the no-valid-YMOB warning and produces nothing. -/
def fetchKeys (remote : kappa → tau → FetchCall rho) :
    List kappa → tau → List tau → FetchResult kappa tau rho
  | [], _, toks => ⟨[], 0, .exhausted, [], toks⟩
  | k :: ks, tok, toks =>
    let s := tryKey remote k tok toks
    match s.out with
    | .success r => ⟨[r], 0, .succeeded, [(k, s.calls)], s.toks⟩
    | .nextKey =>
      let rest := fetchKeys remote ks s.tok s.toks
      ⟨rest.results, rest.resubmits, rest.taskEnd,
        (k, s.calls) :: rest.trace, rest.toks⟩
    | .abortSid => ⟨[], 0, .abortedSid, [(k, s.calls)], s.toks⟩
    | .reschedule => ⟨[], 1, .rescheduled, [(k, s.calls)], s.toks⟩
    | .uncaught => ⟨[], 0, .uncaughtException, [(k, s.calls)], s.toks⟩
    | .blocked => ⟨[], 0, .blockedOnPool, [(k, s.calls)], s.toks⟩

/-- SouthDataService._fetch: returns immediately when the service is not
running, otherwise takes one token from the pool (blocking if empty) and
runs the per-key loop. -/
def fetchTask (running : Bool) (remote : kappa → tau → FetchCall rho)
    (qs : List kappa) (pool : List tau) : FetchResult kappa tau rho :=
  if running then
    match pool with
    | [] => ⟨[], 0, .blockedOnPool, [], []⟩
    | t :: rest => fetchKeys remote qs t rest
  else ⟨[], 0, .notStarted, [], pool⟩

/-- Sequential driver for one QuerySet and its resubmission chain: every
RuntimeError task ends and submits one fresh task for the same QuerySet (so
the attempt counter selects the oracle for the new call sequence); the
driver returns the accumulated records and the total number of tasks
scheduled, or none when the fuel runs out. -/
def runTasks (remotes : Nat → kappa → tau → FetchCall rho) :
    Nat → Nat → List kappa → List tau → Option (List rho × Nat)
  | 0, _, _, _ => none
  | fuel + 1, attempt, qs, pool =>
    let r := fetchTask true (remotes attempt) qs pool
    if r.resubmits = 0 then some (r.results, 1)
    else
      match runTasks remotes fuel (attempt + 1) qs r.toks with
      | none => none
      | some (res, n) => some (r.results ++ res, n + 1)

/-! ## Captcha solver (southocr/southocr.py)

The input bitmap is modelled as a luminance image (the result of
img.convert to L mode); solve first thresholds it at 160 into a 1-bit image
where 0 is ink and 1 is background, exactly as
img.point(lambda x: 1 if x >= 160 else 0). -/

/-- A luminance bitmap: dimensions plus a pixel accessor (x column, y row),
values on the 0-255 scale. -/
structure Img where
  width : Nat
  height : Nat
  pix : Nat → Nat → Nat

/-- STAGE constant from southocr.py. -/
def STAGE_SEARCHING_FOR_CHAR : Nat := 0

/-- STAGE constant from southocr.py. -/
def STAGE_PROCESSING_CHAR : Nat := 1

/-- Binarized pixel: 1 when the luminance is at least 160 (background),
otherwise 0 (ink), following img.point(lambda x: 1 if x >= 160 else 0). -/
def binPix (img : Img) (x y : Nat) : Nat :=
  if 160 ≤ img.pix x y then 1 else 0

/-- Whether column x of the binarized image carries no ink pixel, as decided
by the inner y loop of solve. -/
def emptyCol (img : Img) (x : Nat) : Bool :=
  (List.range img.height).all fun y => !(binPix img x y == 0)

/-- southocr.append_to_char_boxes_LR: spans wider than the maximum single
glyph width 8 are split at their midpoint into two spans. -/
def append_to_char_boxes_LR (lst : List (Nat × Nat)) (left right : Nat) :
    List (Nat × Nat) :=
  if 8 < right - left then
    let mid := (left + right) / 2
    lst ++ [(left, mid), (mid, right)]
  else
    lst ++ [(left, right)]

/-- Accumulator of the column scan: the stage flag, the left boundary being
carried, and the boxes collected so far. -/
structure ColScan where
  stage : Nat
  left : Nat
  boxes : List (Nat × Nat)

/-- One iteration x of the column scan loop in solve: entering a non-empty
column while searching opens a span at x; while processing, an empty column
closes the span at x, and the last column of the image closes it at the
image width. -/
def colStep (img : Img) (s : ColScan) (x : Nat) : ColScan :=
  let e := emptyCol img x
  let s1 :=
    if e = false ∧ s.stage = STAGE_SEARCHING_FOR_CHAR then
      { s with stage := STAGE_PROCESSING_CHAR, left := x }
    else s
  if s1.stage = STAGE_PROCESSING_CHAR then
    if e then
      ⟨STAGE_SEARCHING_FOR_CHAR, s1.left,
        append_to_char_boxes_LR s1.boxes s1.left x⟩
    else if x = img.width - 1 then
      ⟨STAGE_SEARCHING_FOR_CHAR, s1.left,
        append_to_char_boxes_LR s1.boxes s1.left img.width⟩
    else s1
  else s1

/-- The char_boxes_LR list built by the column scan of solve. -/
def char_boxes_LR (img : Img) : List (Nat × Nat) :=
  ((List.range img.width).foldl (colStep img)
    ⟨STAGE_SEARCHING_FOR_CHAR, 0, []⟩).boxes

/-- Modelled from the spec: the maximal runs of ink-carrying columns of the
binarized bitmap, before any midpoint splitting.  This definition follows
the words of the specification (section 4.1 step 2, the claim about
well-separated ink-column spans); it differs from char_boxes_LR only in
appending each maximal run unsplit, and is used to state what the
binarization yields. -/
def specColStep (img : Img) (s : ColScan) (x : Nat) : ColScan :=
  let e := emptyCol img x
  let s1 :=
    if e = false ∧ s.stage = STAGE_SEARCHING_FOR_CHAR then
      { s with stage := STAGE_PROCESSING_CHAR, left := x }
    else s
  if s1.stage = STAGE_PROCESSING_CHAR then
    if e then
      ⟨STAGE_SEARCHING_FOR_CHAR, s1.left, s1.boxes ++ [(s1.left, x)]⟩
    else if x = img.width - 1 then
      ⟨STAGE_SEARCHING_FOR_CHAR, s1.left, s1.boxes ++ [(s1.left, img.width)]⟩
    else s1
  else s1

/-- Modelled from the spec: the list of maximal ink-column spans yielded by
the binarization (see specColStep). -/
def specInkColumnSpans (img : Img) : List (Nat × Nat) :=
  ((List.range img.width).foldl (specColStep img)
    ⟨STAGE_SEARCHING_FOR_CHAR, 0, []⟩).boxes

/-- Whether row y carries no ink within columns left to right, as decided by
the inner x loop of the row scan. -/
def emptyRow (img : Img) (left right y : Nat) : Bool :=
  (List.range' left (right - left)).all fun x => !(binPix img x y == 0)

/-- Accumulator of the row scan: stage flag, upper boundary carried, and the
upper-lower boxes appended so far (shared across all column spans, like the
single char_boxes_UL list in solve). -/
structure RowScan where
  stage : Nat
  upper : Nat
  boxes : List (Nat × Nat)

/-- One iteration y of the row scan of solve restricted to one column span. -/
def rowStep (img : Img) (left right : Nat) (s : RowScan) (y : Nat) : RowScan :=
  let e := emptyRow img left right y
  let s1 :=
    if e = false ∧ s.stage = STAGE_SEARCHING_FOR_CHAR then
      { s with stage := STAGE_PROCESSING_CHAR, upper := y }
    else s
  if s1.stage = STAGE_PROCESSING_CHAR then
    if e then
      ⟨STAGE_SEARCHING_FOR_CHAR, s1.upper, s1.boxes ++ [(s1.upper, y)]⟩
    else if y = img.height - 1 then
      ⟨STAGE_SEARCHING_FOR_CHAR, s1.upper, s1.boxes ++ [(s1.upper, img.height)]⟩
    else s1
  else s1

/-- The char_boxes_UL list of solve: for each column span in order, the row
scan appends the vertical extents found inside that span; the scan state is
shared across spans exactly as in the source. -/
def char_boxes_UL (img : Img) (lrs : List (Nat × Nat)) : List (Nat × Nat) :=
  (lrs.foldl
    (fun s lr => (List.range img.height).foldl (rowStep img lr.1 lr.2) s)
    ⟨STAGE_SEARCHING_FOR_CHAR, 0, []⟩).boxes

/-- A cropped glyph: a 1-bit sub-image (0 ink, 1 background). -/
structure Glyph where
  w : Nat
  h : Nat
  pix : Nat → Nat → Nat

/-- img.crop((left, upper, right, lower)) applied to the binarized image. -/
def cropGlyph (img : Img) (left right upper lower : Nat) : Glyph :=
  ⟨right - left, lower - upper, fun x y => binPix img (left + x) (upper + y)⟩

/-- The raw pixel buffer of a glyph in row-major order, standing for the
byte content hashed by sha1 over cimg.tobytes(); two glyphs have equal
buffers exactly when their hashes collide as content keys. -/
def glyphBytes (g : Glyph) : List (List Nat) :=
  (List.range g.h).map fun y => (List.range g.w).map fun x => g.pix x y

/-- A reference glyph loaded from the samples directory: the label is the
first character of the file name; the pixel matrix and size come from the
sample image. -/
structure GlyphSample where
  label : Char
  w : Nat
  h : Nat
  pix : Nat → Nat → Nat

/-- The raw pixel buffer of a sample, as hashed when sample_hashmap is
built. -/
def sampleBytes (s : GlyphSample) : List (List Nat) :=
  (List.range s.h).map fun y => (List.range s.w).map fun x => s.pix x y

/-- Lookup in sample_hashmap: the dict maps the content hash of each sample
buffer to its label, later insertions overwriting earlier ones, so a lookup
returns the label of the last registered sample whose buffer equals the
probe. -/
def sample_hashmap_get (samples : List GlyphSample) (b : List (List Nat)) :
    Option Char :=
  (samples.reverse.find? fun s => sampleBytes s == b).map fun s => s.label

/-- Per-pixel contribution in calculate_similarity: equal ink pixels score
1, equal background pixels score 0, differing pixels score -1. -/
def pairScore (c s : Nat) : Int :=
  if c = s then (if c = 0 then 1 else 0) else -1

/-- Score of the candidate laid over the sample with no displacement: the
inner double loop of calculate_similarity, which reads cdata[x, y] and
sdata[x, y]. -/
def overlayScore (cpix : Nat → Nat → Nat) (cw ch : Nat)
    (spix : Nat → Nat → Nat) : Int :=
  (List.range cw).foldl
    (fun acc x =>
      (List.range ch).foldl
        (fun acc2 y => acc2 + pairScore (cpix x y) (spix x y))
        acc)
    0

/-- southocr.calculate_similarity: equal sizes score the plain overlay; a
candidate exceeding the sample in either dimension is rejected with the
sentinel -100.  Otherwise the source loops xoffset and yoffset over every
in-bounds position but never applies them to the pixel reads: the inner
loop reads sdata[x, y], not sdata[x + xoffset, y + yoffset], so every
entry of score_list is the same un-displaced overlay score and the final
max over the list equals that single score.  The fold below mirrors that
loop: the binders are the unused offsets, and the seed is the overlay
score, itself an element of the nonempty score list. -/
def calculate_similarity (cpix : Nat → Nat → Nat) (cw ch : Nat)
    (spix : Nat → Nat → Nat) (sw sh : Nat) : Int :=
  if cw = sw ∧ ch = sh then overlayScore cpix cw ch spix
  else if sw < cw ∨ sh < ch then -100
  else
    (List.range (sw - cw + 1)).foldl
      (fun m _xoffset =>
        (List.range (sh - ch + 1)).foldl
          (fun m2 _yoffset => max m2 (overlayScore cpix cw ch spix)) m)
      (overlayScore cpix cw ch spix)

/-- The (score, label) pairs built by visual_recognise_char_img. -/
def scorePairs (samples : List GlyphSample) (c : Glyph) : List (Int × Char) :=
  samples.map fun s => (calculate_similarity c.pix c.w c.h s.pix s.w s.h, s.label)

/-- Python max over a list of (score, label) pairs keyed by the score: the
first pair attaining the maximal score wins; max of an empty list raises
ValueError (none). -/
def pyMaxPair : List (Int × Char) → Option (Int × Char)
  | [] => none
  | x :: xs => some (xs.foldl (fun b y => if b.1 < y.1 then y else b) x)

/-- southocr.visual_recognise_char_img: the label of the first sample with
the maximal similarity score; none models the ValueError raised by max on
an empty sample set. -/
def visual_recognise_char_img (samples : List GlyphSample) (c : Glyph) :
    Option Char :=
  (pyMaxPair (scorePairs samples c)).map fun p => p.2

/-- Resolution of one cropped glyph in solve: the hash fast path first, and
only on a miss the slow matcher (the parameter lets theorems state that the
fast path never invokes it). -/
def resolveGlyph (slow : Glyph → Option Char) (samples : List GlyphSample)
    (c : Glyph) : Option Char :=
  match sample_hashmap_get samples (glyphBytes c) with
  | some ch => some ch
  | none => slow c

/-- The four cropped glyph images of solve, pairing char_boxes_LR with
char_boxes_UL positionally as the zip in the source does. -/
def glyphsOf (img : Img) : List Glyph :=
  ((char_boxes_LR img).zip (char_boxes_UL img (char_boxes_LR img))).map
    fun p => cropGlyph img p.1.1 p.1.2 p.2.1 p.2.2

/-- The result_list of solve after the quick and slow match passes, with
the slow matcher abstracted. -/
def resolutions (slow : Glyph → Option Char) (samples : List GlyphSample)
    (img : Img) : List (Option Char) :=
  (glyphsOf img).map (resolveGlyph slow samples)

/-- Outcome of solve: None for a wrong span count, the joined code on
success, or an exception escaping (max over an empty sample set). -/
inductive SolveOut where
  | unsolvable
  | codeStr (s : String)
  | error
deriving DecidableEq

/-- southocr.solve with the slow matcher as a parameter: fail unless the
column scan yields exactly 4 boxes, fail unless the row scan yields exactly
4 boxes in total, then crop, quick-match, slow-match the misses and join. -/
def solveWith (slow : Glyph → Option Char) (samples : List GlyphSample)
    (img : Img) : SolveOut :=
  if (char_boxes_LR img).length ≠ 4 then .unsolvable
  else if (char_boxes_UL img (char_boxes_LR img)).length ≠ 4 then .unsolvable
  else
    let rs := resolutions slow samples img
    if rs.all Option.isSome then .codeStr ⟨rs.filterMap id⟩ else .error

/-- southocr.solve: the slow matcher is visual_recognise_char_img over the
registered samples. -/
def solve (samples : List GlyphSample) (img : Img) : SolveOut :=
  solveWith (visual_recognise_char_img samples) samples img

/-! ## Captcha service construction and the bounded token pool
(captchaservice.py)

The queue.Queue(maxsize) holding solved tokens enforces its bound on put:
a put succeeds immediately while the queue holds fewer than max_pool_size
items and blocks otherwise.  The state records the fields set by
AbstractCaptchaService.__init__. -/

/-- Fields assigned by AbstractCaptchaService.__init__(worker_count,
maxsize=40): the worker count, the pool bound handed to Queue, the (empty)
pool, and the running flag. -/
structure CaptchaServiceState (tau : Type) where
  worker_count : Nat
  max_pool_size : Nat
  pool : List tau
  running : Bool

/-- AbstractCaptchaService.__init__ with both arguments explicit (the
Python default for maxsize is 40). -/
def AbstractCaptchaService_init (tau : Type) (worker_count maxsize : Nat) :
    CaptchaServiceState tau :=
  ⟨worker_count, maxsize, [], false⟩

/-- SouthCaptchaService.__init__(worker_count, maxsize=40) forwards only
worker_count: the body is super().__init__(worker_count), so the maxsize
argument is dropped and the base default 40 is always used. -/
def SouthCaptchaService_init (tau : Type) (worker_count maxsize : Nat) :
    CaptchaServiceState tau :=
  AbstractCaptchaService_init tau worker_count 40

/-- SouthEnrollmentCaptchaService.__init__(worker_count, maxsize=40)
likewise forwards only worker_count. -/
def SouthEnrollmentCaptchaService_init (tau : Type)
    (worker_count maxsize : Nat) : CaptchaServiceState tau :=
  AbstractCaptchaService_init tau worker_count 40

/-- Queue.put on the bounded token pool: succeeds while the queue holds
fewer than max_pool_size items, otherwise the producer blocks (none). -/
def queue_put (st : CaptchaServiceState tau) (tok : tau) :
    Option (CaptchaServiceState tau) :=
  if st.pool.length < st.max_pool_size then
    some { st with pool := st.pool ++ [tok] }
  else none

/-- A sequence of puts, all of which must succeed without blocking. -/
def queue_putMany (st : CaptchaServiceState tau) :
    List tau → Option (CaptchaServiceState tau)
  | [] => some st
  | t :: ts =>
    match queue_put st t with
    | none => none
    | some st2 => queue_putMany st2 ts

/-! ## Result sink aliasing (AbstractDataService.get_result_list)

Mutation claims need an explicit object heap: records live in cells, the
sink holds the addresses of its records, deepcopy allocates fresh cells
holding copies, and a mutation writes one cell. -/

/-- A Python object heap: cells addressed by position; allocation appends. -/
structure PyHeap (alpha : Type) where
  cells : List alpha

/-- Allocate a fresh cell, returning the new heap and the fresh address. -/
def heapAlloc (h : PyHeap alpha) (v : alpha) : PyHeap alpha × Nat :=
  (⟨h.cells ++ [v]⟩, h.cells.length)

/-- Read a cell (default value for a dangling address, which the theorems
exclude by hypothesis). -/
def heapRead [Inhabited alpha] (h : PyHeap alpha) (a : Nat) : alpha :=
  (h.cells.get? a).getD default

/-- Overwrite one cell: a record mutation. -/
def heapWrite (h : PyHeap alpha) (a : Nat) (v : alpha) : PyHeap alpha :=
  ⟨h.cells.set a v⟩

/-- copy.deepcopy over the record list: allocate a fresh copy of every
record, in order, returning the extended heap and the fresh addresses that
populate the new list object. -/
def deepcopyRecords [Inhabited alpha] :
    PyHeap alpha → List Nat → PyHeap alpha × List Nat
  | h, [] => (h, [])
  | h, a :: as =>
    let p := heapAlloc h (heapRead h a)
    let q := deepcopyRecords p.1 as
    (q.1, p.2 :: q.2)

/-- AbstractDataService._add_result: allocate the record and append its
address to self._results. -/
def add_result (h : PyHeap alpha) (recs : List Nat) (v : alpha) :
    PyHeap alpha × List Nat :=
  let p := heapAlloc h v
  (p.1, recs ++ [p.2])

/-- AbstractDataService.get_result_list(copy=True): deepcopy of the record
list, otherwise the live reference. -/
def get_result_list [Inhabited alpha] (h : PyHeap alpha) (recs : List Nat)
    (copy : Bool) : PyHeap alpha × List Nat :=
  if copy then deepcopyRecords h recs else (h, recs)

/-! ## Concrete fixtures for witnesses and counterexamples -/

/-- Remote oracle whose every response carries the unrecognized status 5. -/
def unknownRemote : Nat → Nat → FetchCall Nat := fun _ _ => .json 5 0

/-- Remote oracle reporting invalid captcha (status -2) until token 3, the
third token of the pool below, is presented, then succeeding. -/
def thirdTokenRemote : Nat → Nat → FetchCall Nat :=
  fun _ tok => if tok = 3 then .json 1 99 else .json (-2) 0

/-- Remote oracle that always fails transport. -/
def failRemote : Nat → Nat → FetchCall Nat := fun _ _ => .failure

/-- Per-attempt oracles: the first task's calls fail transport, the
resubmitted task's calls succeed. -/
def flakyRemotes : Nat → Nat → Nat → FetchCall Nat :=
  fun attempt _ _ => if attempt = 0 then .failure else .json 1 42

/-- Remote oracle: invalid YMOB (status -4) everywhere except success on
key 2. -/
def secondKeyRemote : Nat → Nat → FetchCall Nat :=
  fun k _ => if k = 2 then .json 1 5 else .json (-4) 0

/-- 7 by 1 test bitmap: ink in columns 0, 2, 4 and 6, background between:
four well-separated one-column glyphs. -/
def imgFour : Img := ⟨7, 1, fun x _ => if x % 2 = 0 then 0 else 255⟩

/-- All-ink 1 by 1 reference sample labelled x (pixel values already in the
binarized 0/1 renaming used throughout the solver model). -/
def sampleX : GlyphSample := ⟨'x', 1, 1, fun _ _ => 0⟩

/-- 21 by 1 test bitmap: ink everywhere except column 10, so the
binarization yields two maximal ink-column spans of width 10 each, which
the solver splits at their midpoints into four spans. -/
def imgWide : Img := ⟨21, 1, fun x _ => if x = 10 then 255 else 0⟩

/-- Candidate glyph for the out-of-bounds analysis: 1 by 101, all ink. -/
def bigGlyph : Glyph := ⟨1, 101, fun _ _ => 0⟩

/-- 1 by 1 all-background sample labelled a: strictly smaller than bigGlyph
in height, so comparison is rejected with the sentinel. -/
def smallSampleA : GlyphSample := ⟨'a', 1, 1, fun _ _ => 1⟩

/-- 1 by 101 all-background sample labelled b: equal in size to bigGlyph
with every pixel differing, scoring -101. -/
def tallSampleB : GlyphSample := ⟨'b', 1, 101, fun _ _ => 1⟩

/-- Candidate glyph 1 by 2, all ink, for the witness of the out-of-bounds
theorem. -/
def inkGlyph2 : Glyph := ⟨1, 2, fun _ _ => 0⟩

/-- 1 by 2 all-ink sample labelled b, matching inkGlyph2 exactly. -/
def inkSampleB2 : GlyphSample := ⟨'b', 1, 2, fun _ _ => 0⟩

/-! ## Helper lemmas -/

/-- Shape of the per-key loop of fetchKeys: the keys attempted are an
initial segment of the supplied list in supplied order; success produces
exactly one record; every other ending produces none; exhaustion means
every key was attempted. -/
theorem fetchKeys_spec (remote : kappa → tau → FetchCall rho) :
    ∀ (qs : List kappa) (tok : tau) (toks : List tau),
      ((fetchKeys remote qs tok toks).trace.map Prod.fst =
        qs.take (fetchKeys remote qs tok toks).trace.length) ∧
      ((fetchKeys remote qs tok toks).taskEnd = .succeeded →
        (fetchKeys remote qs tok toks).results.length = 1) ∧
      ((fetchKeys remote qs tok toks).taskEnd ≠ .succeeded →
        (fetchKeys remote qs tok toks).results = []) ∧
      ((fetchKeys remote qs tok toks).taskEnd = .exhausted →
        (fetchKeys remote qs tok toks).trace.map Prod.fst = qs) := by
  intro qs
  induction qs with
  | nil =>
    intro tok toks
    simp [fetchKeys]
  | cons k ks ih =>
    intro tok toks
    cases h : (tryKey remote k tok toks).out with
    | success r => simp [fetchKeys, h]
    | nextKey =>
      obtain ⟨ih1, ih2, ih3, ih4⟩ :=
        ih (tryKey remote k tok toks).tok (tryKey remote k tok toks).toks
      simp only [fetchKeys, h]
      refine ⟨?_, ih2, ih3, ?_⟩
      · simpa using ih1
      · intro he
        simpa using ih4 he
    | abortSid => simp [fetchKeys, h]
    | reschedule => simp [fetchKeys, h]
    | uncaught => simp [fetchKeys, h]
    | blocked => simp [fetchKeys, h]

/-- Resubmission bookkeeping of fetchKeys: at most one new task is ever
submitted, and exactly one is submitted exactly when the task ends
rescheduled, in which case nothing was appended to the sink. -/
theorem fetchKeys_resched (remote : kappa → tau → FetchCall rho) :
    ∀ (qs : List kappa) (tok : tau) (toks : List tau),
      (fetchKeys remote qs tok toks).resubmits ≤ 1 ∧
      ((fetchKeys remote qs tok toks).taskEnd = .rescheduled →
        (fetchKeys remote qs tok toks).results = [] ∧
        (fetchKeys remote qs tok toks).resubmits = 1) ∧
      ((fetchKeys remote qs tok toks).resubmits = 1 →
        (fetchKeys remote qs tok toks).taskEnd = .rescheduled) := by
  intro qs
  induction qs with
  | nil =>
    intro tok toks
    simp [fetchKeys]
  | cons k ks ih =>
    intro tok toks
    cases h : (tryKey remote k tok toks).out with
    | success r => simp [fetchKeys, h]
    | nextKey =>
      obtain ⟨ih1, ih2, ih3⟩ :=
        ih (tryKey remote k tok toks).tok (tryKey remote k tok toks).toks
      simp only [fetchKeys, h]
      exact ⟨ih1, ih2, ih3⟩
    | abortSid => simp [fetchKeys, h]
    | reschedule => simp [fetchKeys, h]
    | uncaught => simp [fetchKeys, h]
    | blocked => simp [fetchKeys, h]

/-! ## Claim theorems -/

/-- C1, counterexample.  The claim says an unrecognized status code is
logged and the same QueryKey is retried with the current token, the worker
loop continuing.  On the oracle that always answers with status 5 the task
instead makes exactly one remote call for the key (trace [(7, 1)]), appends
nothing, resubmits nothing, and ends with the exception escaping:
UnknownResponseException derives from BaseException, so neither the
except-Exception clause of _fetch nor the wrapped decorator catches it. -/
theorem c1_unknown_status_counterexample :
    fetchTask true unknownRemote [7] [3] =
      ⟨[], 0, .uncaughtException, [(7, 1)], []⟩ := rfl

/-- C1, amended.  When the response status is unrecognized, _fetch0 raises
UnknownResponseException; it is caught by no handler, so the task ends at
once: no retry of the key (a single call), no record, no resubmission, and
the worker loop does not continue. -/
theorem c1_unknown_status_uncaught (remote : kappa → tau → FetchCall rho)
    (k : kappa) (ks : List kappa) (tok : tau) (toks : List tau)
    (h : fetch0 (remote k tok) = .unknownResponse) :
    fetchKeys remote (k :: ks) tok toks =
      ⟨[], 0, .uncaughtException, [(k, 1)], toks⟩ := by
  have htk : tryKey remote k tok toks = ⟨.uncaught, tok, toks, 1⟩ := by
    cases toks <;> simp [tryKey, h]
  simp [fetchKeys, htk]

/-- C1, witness for the amended theorem. -/
theorem c1_unknown_status_uncaught_witness :
    fetchKeys unknownRemote [7] 3 [] =
      ⟨[], 0, .uncaughtException, [(7, 1)], []⟩ :=
  c1_unknown_status_uncaught unknownRemote 7 [] 3 [] rfl

/-- C2, code bug.  Both remote captcha service constructors accept a
token-buffer capacity but drop it: the body is super().__init__
(worker_count), so Queue(40) is always built.  With maxsize 1 configured,
three puts all succeed without blocking and the observed buffer length
reaches 3, exceeding the configured capacity plus one transient
insertion. -/
theorem c2_maxsize_dropped_eval :
    (SouthCaptchaService_init Nat 1 1).max_pool_size = 40 ∧
    (SouthEnrollmentCaptchaService_init Nat 1 1).max_pool_size = 40 ∧
    (queue_putMany (SouthCaptchaService_init Nat 1 1) [5, 6, 7]).map
      (fun st => st.pool.length) = some 3 ∧
    1 + 1 < 3 :=
  ⟨rfl, rfl, rfl, by omega⟩

/-- C5.  The QueryKeys of a task are attempted strictly in supplied order
(the attempted keys, in trace order, form an initial segment of the
supplied list); a task ending in success appended exactly one record, and
the trace-initial-segment shape shows no key beyond the succeeding one was
attempted; a task ending any other way, in particular by exhausting every
key, appended no record, and exhaustion means the trace covered exactly the
supplied keys. -/
theorem c5_order_first_success (remote : kappa → tau → FetchCall rho)
    (qs : List kappa) (pool : List tau) :
    ((fetchTask true remote qs pool).trace.map Prod.fst =
      qs.take (fetchTask true remote qs pool).trace.length) ∧
    ((fetchTask true remote qs pool).taskEnd = .succeeded →
      (fetchTask true remote qs pool).results.length = 1) ∧
    ((fetchTask true remote qs pool).taskEnd ≠ .succeeded →
      (fetchTask true remote qs pool).results = []) ∧
    ((fetchTask true remote qs pool).taskEnd = .exhausted →
      (fetchTask true remote qs pool).trace.map Prod.fst = qs) := by
  match pool with
  | [] => simp [fetchTask]
  | t :: rest =>
    simpa [fetchTask] using fetchKeys_spec remote qs t rest

/-- C5, witness: keys 1 and 2 of the 3-key set answer invalid YMOB and
success respectively; the task appends exactly one record and attempted
keys 1, 2 only. -/
theorem c5_order_first_success_witness :
    ((fetchTask true secondKeyRemote [1, 2, 3] [0]).trace.map Prod.fst =
      [1, 2, 3].take (fetchTask true secondKeyRemote [1, 2, 3] [0]).trace.length) ∧
    (fetchTask true secondKeyRemote [1, 2, 3] [0]).results.length = 1 :=
  ⟨(c5_order_first_success secondKeyRemote [1, 2, 3] [0]).1,
   (c5_order_first_success secondKeyRemote [1, 2, 3] [0]).2.1 rfl⟩

/-- C6.  General part: a response classified invalid captcha makes the loop
discard the held token, draw the pool head, and re-run the SAME QueryKey
(one more call recorded); the discarded token appears nowhere in the
continuation.  Concrete part: with tokens 1, 2, 3 in the pool and a remote
accepting only token 3, the key is attempted three times, the task succeeds
using token 3 (the tok field of the final state), and appends exactly the
one record. -/
theorem c6_invalid_token_retry :
    (∀ (remote : kappa → tau → FetchCall rho) (k : kappa) (tok t : tau)
       (ts : List tau),
      fetch0 (remote k tok) = .invalidCaptcha →
      tryKey remote k tok (t :: ts) =
        ⟨(tryKey remote k t ts).out, (tryKey remote k t ts).tok,
         (tryKey remote k t ts).toks, (tryKey remote k t ts).calls + 1⟩) ∧
    tryKey thirdTokenRemote 7 1 [2, 3] = ⟨.success 99, 3, [], 3⟩ ∧
    fetchTask true thirdTokenRemote [7] [1, 2, 3] =
      ⟨[99], 0, .succeeded, [(7, 3)], []⟩ := by
  refine ⟨?_, rfl, rfl⟩
  intro remote k tok t ts h
  simp [tryKey, h]

/-- C6, witness: the retry step applied at the first invalid token of the
concrete scenario. -/
theorem c6_invalid_token_retry_witness :
    tryKey thirdTokenRemote 7 1 [2, 3] =
      ⟨(tryKey thirdTokenRemote 7 2 [3]).out, (tryKey thirdTokenRemote 7 2 [3]).tok,
       (tryKey thirdTokenRemote 7 2 [3]).toks,
       (tryKey thirdTokenRemote 7 2 [3]).calls + 1⟩ :=
  c6_invalid_token_retry.1 thirdTokenRemote 7 1 2 [3] rfl

/-- C7.  General part: a task never submits more than one new task, a task
ending rescheduled (transport or parse failure) appended no record and
submitted exactly one brand-new task, and any submission means the task
ended rescheduled; the driver resubmits for the same QuerySet by
construction.  Concrete part: an oracle failing transport on the whole
first task and succeeding on the second yields exactly one record and two
tasks scheduled in total. -/
theorem c7_transport_failure_reschedule :
    (∀ (running : Bool) (remote : kappa → tau → FetchCall rho)
       (qs : List kappa) (pool : List tau),
      (fetchTask running remote qs pool).resubmits ≤ 1 ∧
      ((fetchTask running remote qs pool).taskEnd = .rescheduled →
        (fetchTask running remote qs pool).results = [] ∧
        (fetchTask running remote qs pool).resubmits = 1) ∧
      ((fetchTask running remote qs pool).resubmits = 1 →
        (fetchTask running remote qs pool).taskEnd = .rescheduled)) ∧
    runTasks flakyRemotes 5 0 [7] [1, 2] = some ([42], 2) := by
  refine ⟨?_, rfl⟩
  intro running remote qs pool
  match running, pool with
  | false, pool => simp [fetchTask]
  | true, [] => simp [fetchTask]
  | true, t :: rest => simpa [fetchTask] using fetchKeys_resched remote qs t rest

/-- C7, witness: the general part applied to the always-failing oracle. -/
theorem c7_transport_failure_reschedule_witness :
    (fetchTask true failRemote [7] [0]).results = [] ∧
    (fetchTask true failRemote [7] [0]).resubmits = 1 :=
  (c7_transport_failure_reschedule.1 true failRemote [7] [0]).2.1 rfl

/-- The Python max fold keeps a pair whose score dominates the seed and
every pair of the list. -/
theorem pyFold_ge (xs : List (Int × Char)) :
    ∀ x : Int × Char,
      x.1 ≤ (xs.foldl (fun b y => if b.1 < y.1 then y else b) x).1 ∧
      ∀ q ∈ xs, q.1 ≤ (xs.foldl (fun b y => if b.1 < y.1 then y else b) x).1 := by
  induction xs with
  | nil => intro x; simp
  | cons y ys ih =>
    intro x
    simp only [List.foldl_cons, List.mem_cons]
    obtain ⟨ih1, ih2⟩ := ih (if x.1 < y.1 then y else x)
    have hseed : x.1 ≤ (if x.1 < y.1 then y else x).1 := by
      by_cases hxy : x.1 < y.1 <;> simp [hxy]
      exact le_of_lt hxy
    have hy : y.1 ≤ (if x.1 < y.1 then y else x).1 := by
      by_cases hxy : x.1 < y.1 <;> simp [hxy]
      exact le_of_not_lt hxy
    refine ⟨le_trans hseed ih1, ?_⟩
    intro q hq
    rcases hq with rfl | hq
    · exact le_trans hy ih1
    · exact ih2 q hq

/-- Every score fed to the Python max is at most the score of the returned
pair. -/
theorem pyMaxPair_ge (l : List (Int × Char)) (p : Int × Char)
    (hp : pyMaxPair l = some p) : ∀ q ∈ l, q.1 ≤ p.1 := by
  cases l with
  | nil => simp [pyMaxPair] at hp
  | cons x xs =>
    simp only [pyMaxPair, Option.some.injEq] at hp
    intro q hq
    rw [← hp]
    rcases List.mem_cons.mp hq with heq | hq2
    · rw [heq]
      exact (pyFold_ge xs x).1
    · exact (pyFold_ge xs x).2 q hq2

/-- C4, counterexample.  The claim says a candidate strictly larger than a
sample in some dimension never has the maximum score, the sentinel -100
being below any in-bounds achievable score.  Candidate bigGlyph (1 by 101,
all ink) is strictly taller than smallSampleA, which is rejected at -100;
the equal-size in-bounds comparison against tallSampleB achieves -101,
below the sentinel, so smallSampleA holds the maximum score and wins the
recognition. -/
theorem c4_oversize_wins_counterexample :
    calculate_similarity bigGlyph.pix bigGlyph.w bigGlyph.h
      smallSampleA.pix smallSampleA.w smallSampleA.h = -100 ∧
    calculate_similarity bigGlyph.pix bigGlyph.w bigGlyph.h
      tallSampleB.pix tallSampleB.w tallSampleB.h = -101 ∧
    smallSampleA.h < bigGlyph.h ∧
    visual_recognise_char_img [smallSampleA, tallSampleB] bigGlyph =
      some 'a' := by
  refine ⟨rfl, rfl, ?_, rfl⟩
  decide

/-- C4, amended.  A candidate exceeding a sample in either dimension scores
the sentinel -100 against it, and whenever some sample of the set attains a
score strictly above -100 the recognition winner also scores strictly above
-100, so the rejected sample does not hold the maximum score and cannot
win.  (Unamended, the claim fails when every sample scores at or below
-100: see the counterexample, where an in-bounds comparison achieves
-101.) -/
theorem c4_oversize_rejected (samples : List GlyphSample) (c : Glyph)
    (s : GlyphSample) (hover : s.w < c.w ∨ s.h < c.h) :
    calculate_similarity c.pix c.w c.h s.pix s.w s.h = -100 ∧
    ((∃ s2 ∈ samples,
        -100 < calculate_similarity c.pix c.w c.h s2.pix s2.w s2.h) →
      ∀ p, pyMaxPair (scorePairs samples c) = some p → -100 < p.1) := by
  constructor
  · have hne : ¬(c.w = s.w ∧ c.h = s.h) := by
      rcases hover with h | h <;> rintro ⟨h1, h2⟩ <;> omega
    simp only [calculate_similarity]
    rw [if_neg hne, if_pos hover]
  · rintro ⟨s2, hs2, hgt⟩ p hp
    have hq : (calculate_similarity c.pix c.w c.h s2.pix s2.w s2.h, s2.label) ∈
        scorePairs samples c := List.mem_map_of_mem _ hs2
    exact lt_of_lt_of_le hgt (pyMaxPair_ge _ p hp _ hq)

/-- C4, witness for the amended theorem: inkGlyph2 is strictly taller than
smallSampleA (rejected at -100) while inkSampleB2 matches it exactly with
score 2, so the winning pair scores above -100. -/
theorem c4_oversize_rejected_witness :
    calculate_similarity inkGlyph2.pix inkGlyph2.w inkGlyph2.h
      smallSampleA.pix smallSampleA.w smallSampleA.h = -100 ∧
    -100 < ((2 : Int), 'b').1 := by
  have h := c4_oversize_rejected [smallSampleA, inkSampleB2] inkGlyph2
    smallSampleA (Or.inr (by decide))
  exact ⟨h.1, h.2 ⟨inkSampleB2, by simp, by decide⟩ ((2 : Int), 'b') rfl⟩

/-- On a nonempty sample set the slow matcher always produces a label (the
Python max is over a nonempty score list). -/
theorem visual_recognise_isSome (samples : List GlyphSample) (c : Glyph)
    (hs : samples ≠ []) : (visual_recognise_char_img samples c).isSome := by
  match samples with
  | [] => exact absurd rfl hs
  | s :: rest => simp [visual_recognise_char_img, scorePairs, pyMaxPair]

/-- filterMap id preserves the length of an all-some list. -/
theorem length_filterMap_id (l : List (Option Char))
    (h : ∀ x ∈ l, x.isSome) : (l.filterMap id).length = l.length := by
  induction l with
  | nil => simp
  | cons x xs ih =>
    cases x with
    | none => exact absurd (h none (by simp)) (by simp)
    | some c => simp [ih fun y hy => h y (List.mem_cons_of_mem _ hy)]

/-- C3, counterexample.  The claim says every bitmap whose binarization does
not yield exactly 4 well-separated ink-column spans of width at most 8
makes solve return None.  imgWide binarizes to two maximal ink-column spans
of width 10 each; the splitting step turns them into four boxes and solve
returns the 4-character code, not None. -/
theorem c3_wide_spans_counterexample :
    specInkColumnSpans imgWide = [(0, 10), (11, 21)] ∧
    solve [sampleX] imgWide = .codeStr (String.mk ['x', 'x', 'x', 'x']) :=
  ⟨rfl, rfl⟩

/-- C3, amended.  With a nonempty registered sample set: whenever the
column scan (including the midpoint splitting of spans wider than 8) yields
exactly 4 boxes and the row scan yields exactly 4 boxes, solve returns a
4-character code; whenever either count differs from 4, solve returns None.
The original claim holds in its positive half (4 well-separated spans of
width at most 8 are never split, so they are exactly the 4 scan boxes) but
fails in its negative half, since wider spans can be split into 4 boxes:
see the counterexample. -/
theorem c3_solve_shape (samples : List GlyphSample) (img : Img)
    (hs : samples ≠ []) :
    (((char_boxes_LR img).length = 4 ∧
      (char_boxes_UL img (char_boxes_LR img)).length = 4) →
      ∃ s, solve samples img = .codeStr s ∧ s.length = 4) ∧
    (((char_boxes_LR img).length ≠ 4 ∨
      (char_boxes_UL img (char_boxes_LR img)).length ≠ 4) →
      solve samples img = .unsolvable) := by
  constructor
  · rintro ⟨h1, h2⟩
    have hres : ∀ x ∈ resolutions (visual_recognise_char_img samples) samples img,
        x.isSome := by
      intro x hx
      simp only [resolutions, List.mem_map] at hx
      obtain ⟨g, hg, rfl⟩ := hx
      unfold resolveGlyph
      cases hh : sample_hashmap_get samples (glyphBytes g) with
      | some ch => simp
      | none => simpa using visual_recognise_isSome samples g hs
    have hlen : (resolutions (visual_recognise_char_img samples) samples img).length
        = 4 := by
      simp [resolutions, glyphsOf, h1, h2]
    refine ⟨⟨(resolutions (visual_recognise_char_img samples) samples img).filterMap id⟩,
      ?_, ?_⟩
    · simp only [solve, solveWith, h1, h2]
      rw [if_neg (by simp), if_neg (by simp)]
      rw [if_pos (List.all_eq_true.mpr hres)]
    · show ((resolutions (visual_recognise_char_img samples) samples img).filterMap
        id).length = 4
      rw [length_filterMap_id _ hres, hlen]
  · intro hne
    by_cases hLR : (char_boxes_LR img).length = 4
    · rcases hne with h | h
      · exact absurd hLR h
      · simp only [solve, solveWith]
        rw [if_neg (by simp [hLR]), if_pos h]
    · simp only [solve, solveWith]
      rw [if_pos hLR]

/-- C3, witness for the amended theorem: imgFour has four one-column
glyphs, the scans yield 4 boxes each, and solve returns a 4-character
code. -/
theorem c3_solve_shape_witness :
    ∃ s, solve [sampleX] imgFour = .codeStr s ∧ s.length = 4 :=
  (c3_solve_shape [sampleX] imgFour (by simp)).1 ⟨rfl, rfl⟩

/-- C8.  A cropped glyph whose pixel buffer is byte-identical to a
registered sample's buffer is resolved by the hash table: some registered
sample with that very buffer provides the final label, and the resolution
is the same for every slow matcher whatsoever, so the pixel-scoring
comparison is never consulted for that glyph (solve instantiates the slow
matcher with visual_recognise_char_img, and the resolution list is
independent of it at this position). -/
theorem c8_hash_fast_path (samples : List GlyphSample) (img : Img)
    (i : Nat) (s : GlyphSample) (g : Glyph) (hs : s ∈ samples)
    (hg : (glyphsOf img).get? i = some g)
    (hb : glyphBytes g = sampleBytes s) :
    ∃ s2, s2 ∈ samples ∧ sampleBytes s2 = sampleBytes s ∧
      ∀ slow : Glyph → Option Char,
        (resolutions slow samples img).get? i = some (some s2.label) := by
  have hex : ∃ x, x ∈ samples.reverse ∧ (sampleBytes x == glyphBytes g) = true :=
    ⟨s, List.mem_reverse.mpr hs, by simp [hb]⟩
  obtain ⟨s2, hfind⟩ := Option.isSome_iff_exists.mp (List.find?_isSome.mpr hex)
  have hs2mem : s2 ∈ samples := List.mem_reverse.mp (List.mem_of_find?_eq_some hfind)
  have hs2b : sampleBytes s2 = glyphBytes g := by
    simpa using List.find?_some hfind
  refine ⟨s2, hs2mem, by rw [hs2b, hb], ?_⟩
  intro slow
  have hres : resolveGlyph slow samples g = some s2.label := by
    unfold resolveGlyph sample_hashmap_get
    rw [hfind]
    rfl
  rw [resolutions, List.get?_map, hg]
  simp [hres]

/-- C8, witness: the first glyph of imgFour is byte-identical to sampleX
and is resolved to its label under every slow matcher. -/
theorem c8_hash_fast_path_witness :
    ∃ s2, s2 ∈ [sampleX] ∧ sampleBytes s2 = sampleBytes sampleX ∧
      ∀ slow : Glyph → Option Char,
        (resolutions slow [sampleX] imgFour).get? 0 = some (some s2.label) :=
  c8_hash_fast_path [sampleX] imgFour 0 sampleX (cropGlyph imgFour 0 1 0 1)
    (by simp) rfl (by decide)

/-- deepcopyRecords appends fresh cells only: the heap grows by one cell
per record, old cells keep their content, and every returned address is
fresh, at or beyond the old heap end and inside the new heap. -/
theorem deepcopyRecords_spec (alpha : Type) [Inhabited alpha] :
    ∀ (as : List Nat) (h : PyHeap alpha),
      (deepcopyRecords h as).1.cells.length = h.cells.length + as.length ∧
      (∀ i, i < h.cells.length →
        (deepcopyRecords h as).1.cells.get? i = h.cells.get? i) ∧
      (∀ x ∈ (deepcopyRecords h as).2,
        h.cells.length ≤ x ∧ x < (deepcopyRecords h as).1.cells.length) := by
  intro as
  induction as with
  | nil =>
    intro h
    simp [deepcopyRecords]
  | cons a as ih =>
    intro h
    obtain ⟨ih1, ih2, ih3⟩ := ih ⟨h.cells ++ [heapRead h a]⟩
    simp only [deepcopyRecords, heapAlloc] at ih1 ih2 ih3 ⊢
    have hlen : (h.cells ++ [heapRead h a]).length = h.cells.length + 1 := by
      simp
    refine ⟨?_, ?_, ?_⟩
    · rw [ih1, hlen]
      simp only [List.length_cons]
      omega
    · intro i hi
      rw [ih2 i (by omega), List.get?_append hi]
    · intro x hx
      rcases List.mem_cons.mp hx with heq | hx2
      · subst heq
        refine ⟨Nat.le_refl _, ?_⟩
        rw [ih1, hlen]
        omega
      · obtain ⟨hx3, hx4⟩ := ih3 x hx2
        rw [hlen] at hx3
        exact ⟨by omega, hx4⟩

/-- C10.  get_result_list with its default copy=True returns a deep copy:
every returned record address is fresh (so it is not a sink address),
overwriting any returned record leaves every sink record reading exactly
as before the copy, and a record appended to the sink afterwards gets a
fresh address outside the previously returned list, which itself is left
untouched by the append. -/
theorem c10_get_result_list_deepcopy (alpha : Type) [Inhabited alpha]
    (h : PyHeap alpha) (recs : List Nat)
    (hvalid : ∀ a ∈ recs, a < h.cells.length) :
    (∀ a ∈ (get_result_list h recs true).2, a ∉ recs) ∧
    (∀ a ∈ (get_result_list h recs true).2, ∀ v, ∀ r ∈ recs,
      heapRead (heapWrite (get_result_list h recs true).1 a v) r =
        heapRead h r) ∧
    (∀ v : alpha,
      (add_result (get_result_list h recs true).1 recs v).2 =
        recs ++ [(get_result_list h recs true).1.cells.length] ∧
      (get_result_list h recs true).1.cells.length ∉
        (get_result_list h recs true).2) := by
  obtain ⟨d1, d2, d3⟩ := deepcopyRecords_spec alpha recs h
  have hgr : get_result_list h recs true = deepcopyRecords h recs := by
    simp [get_result_list]
  rw [hgr]
  refine ⟨?_, ?_, ?_⟩
  · intro a ha hmem
    have h1 := (d3 a ha).1
    have h2 := hvalid a hmem
    omega
  · intro a ha v r hr
    have hra : a ≠ r := by
      have h1 := (d3 a ha).1
      have h2 := hvalid r hr
      omega
    show ((((deepcopyRecords h recs).1.cells.set a v).get? r).getD default) =
      ((h.cells.get? r).getD default)
    rw [List.get?_set_ne _ _ hra, d2 r (hvalid r hr)]
  · intro v
    refine ⟨by simp [add_result, heapAlloc], ?_⟩
    intro hmem
    have h1 := (d3 _ hmem).2
    omega

/-- C10, witness: a one-record sink; the copied address 1 is fresh,
mutating it leaves the sink record unchanged. -/
theorem c10_get_result_list_deepcopy_witness :
    (1 ∉ ([0] : List Nat)) ∧
    heapRead
      (heapWrite (get_result_list (PyHeap.mk ([10] : List Nat)) [0] true).1 1 99)
      0 = heapRead (PyHeap.mk ([10] : List Nat)) 0 := by
  have h := c10_get_result_list_deepcopy Nat (PyHeap.mk [10]) [0] (by decide)
  exact ⟨h.1 1 (by decide), h.2.1 1 (by decide) 99 0 (by decide)⟩

end Philomelus
